import Mathlib

/-!
Verification of the "Auditoria_telega_analiz" audience-analysis pipeline.

The Python sources (vk_api_client.py, analytics.py, bot.py) are shallowly
embedded below: pure functions become Lean functions, dictionaries become
structures or association lists, `None`-returning fallible code becomes
`Option`, and the HTTP layer is abstracted as an explicit response value
passed to the embedded handler.  Real-valued arithmetic (`round(x, 1)` on
percentages) is modelled over `ℚ` with Python's banker's rounding.  String
primitives are implemented over `List Char` so that every definition
evaluates inside the kernel.
-/

namespace Auditoria

/-! ## Python string/number primitives (over `List Char`) -/

/-- Python whitespace strip (`str.strip()`): drop whitespace on both ends. -/
def trimChars (l : List Char) : List Char :=
  ((l.dropWhile Char.isWhitespace).reverse.dropWhile Char.isWhitespace).reverse

/-- Python `s.strip(c)` for a single character `c`. -/
def stripChar (c : Char) (l : List Char) : List Char :=
  ((l.dropWhile (· == c)).reverse.dropWhile (· == c)).reverse

/-- Python `str.split(sep)` for a one-character separator: split at every
occurrence; `"".split(sep) == [""]` and empty fields are kept. -/
def splitOnChar (c : Char) : List Char → List (List Char)
  | [] => [[]]
  | x :: xs =>
    if x == c then [] :: splitOnChar c xs
    else
      match splitOnChar c xs with
      | [] => [[x]]
      | p :: ps => (x :: p) :: ps

/-- Python `str.isdigit()` for ASCII input: non-empty and all digits. -/
def pyIsDigit (l : List Char) : Bool :=
  !l.isEmpty && l.all Char.isDigit

/-- Digit-string value, most significant first. -/
def digitsVal (l : List Char) : Nat :=
  l.foldl (fun acc c => 10 * acc + (c.toNat - '0'.toNat)) 0

/-- Python `int(s)`: optional surrounding whitespace, optional sign, a
non-empty digit string; anything else raises, modelled as `none`. -/
def pyInt? (l : List Char) : Option Int :=
  let t := trimChars l
  let (sign, digits) :=
    match t with
    | '-' :: rest => ((-1 : Int), rest)
    | '+' :: rest => ((1 : Int), rest)
    | _ => ((1 : Int), t)
  if pyIsDigit digits then some (sign * (digitsVal digits : Int)) else none

/-- Python `str.lower()` restricted to ASCII letters (non-ASCII letters pass
through; the theorems below never depend on non-ASCII case folding). -/
def asciiLower (c : Char) : Char :=
  if 'A' ≤ c ∧ c ≤ 'Z' then Char.ofNat (c.toNat + 32) else c

def lowerChars (l : List Char) : List Char := l.map asciiLower

/-! ## Identifier resolver: `VKAPIClient.extract_group_id` -/

/-- The path component of `urllib.parse.urlparse`, for links that carry an
`http://`/`https://` scheme (the source prepends one before parsing): the
network location runs to the first `/`, `?` or `#`; the path runs from that
`/` to the first `?` or `#`. -/
def urlparsePath (link : List Char) : List Char :=
  let rest :=
    if ("https://".data).isPrefixOf link then link.drop 8
    else if ("http://".data).isPrefixOf link then link.drop 7
    else link
  let afterNetloc := rest.dropWhile fun c => c != '/' && c != '?' && c != '#'
  match afterNetloc with
  | '/' :: _ => afterNetloc.takeWhile fun c => c != '?' && c != '#'
  | _ => []

/-- First maximal digit run of `s`: `re.findall(r'\d+', s)[0]` when any digits
exist, `none` otherwise. -/
def firstDigitRun (l : List Char) : Option (List Char) :=
  let run := (l.dropWhile (fun c => !c.isDigit)).takeWhile Char.isDigit
  if run.isEmpty then none else some run

/-- `VKAPIClient.extract_group_id` (vk_api_client.py, lines 45-91): strips
whitespace and leading `@`, accepts a bare numeric id, otherwise prepends a
scheme, takes the last path segment, and maps `public`/`club`/`event`
segments to their first digit run; any other non-empty last segment is
returned as an alias; an empty parsed path yields `none`. -/
def extract_group_id (group_link : String) : Option String :=
  let link := (trimChars group_link.data).dropWhile (· == '@')
  if pyIsDigit link then some (String.mk link)
  else
    let link :=
      if ("http://".data).isPrefixOf link || ("https://".data).isPrefixOf link then link
      else "https://".data ++ link
    let path := stripChar '/' (urlparsePath link)
    if !path.isEmpty then
      let parts := splitOnChar '/' path
      let identifier := parts.getLastD []
      if ("public".data).isPrefixOf identifier || ("club".data).isPrefixOf identifier
          || ("event".data).isPrefixOf identifier then
        (firstDigitRun identifier).map String.mk
      else
        some (String.mk identifier)
    else none

/-! ## Request gateway: `VKAPIClient.make_request` -/

/-- A decoded VK JSON body: an optional `error` object (we keep its
`error_code`) and an optional `response` payload. -/
structure VKBody (α : Type) where
  errorCode : Option Int
  response : Option α
deriving DecidableEq

/-- Outcome of the HTTP exchange underlying one `make_request` call, before
the handler in vk_api_client.py lines 112-159 interprets it. -/
inductive HttpResult (α : Type) where
  | timeout
  | netError
  | ok (status : Nat) (body : Option (VKBody α))
deriving DecidableEq

/-- What `make_request` returns to its caller: Python `None`, a
`{'error': ..., 'message': ...}` dictionary, or the `response` payload. -/
inductive MRResult (α : Type) where
  | failure
  | named (error : String) (message : String)
  | payload (p : α)
deriving DecidableEq

/-- `VKAPIClient.make_request` response handling (vk_api_client.py, lines
112-159): non-200 statuses, JSON decoding failures, timeouts and network
errors all return `None`; a VK error object returns a named outcome for
codes 15/18/100/113 and `None` for every other code; otherwise the
`response` payload (or `None` when it is absent) is returned. -/
def make_request {α : Type} (r : HttpResult α) : MRResult α :=
  match r with
  | .timeout => .failure
  | .netError => .failure
  | .ok status body =>
    if status ≠ 200 then .failure
    else
      match body with
      | none => .failure
      | some b =>
        match b.errorCode with
        | some code =>
          if code = 15 then .named "group_closed" "Группа закрыта"
          else if code = 18 then .named "group_deleted" "Группа удалена"
          else if code = 100 then .named "invalid_param" "Неверный ID группы"
          else if code = 113 then .named "invalid_id" "Неверный ID группы"
          else .failure
        | none =>
          match b.response with
          | some p => .payload p
          | none => .failure

/-! ## Group record extraction: `VKAPIClient._extract_group_info_from_response` -/

/-- A raw group dictionary as delivered by the API; every field the source
reads is optional (key may be absent). -/
structure GroupDict where
  id : Option Int
  name : Option String
  is_closed : Option Int
  members_count : Option Int
  screen_name : Option String
deriving DecidableEq

/-- The shapes of `groups.getById` responses handled by the source: a bare
list of group dictionaries, or a dictionary with an optional `groups` list
and an optional nested `response`. -/
inductive GroupsResponse where
  | lst (items : List GroupDict)
  | dct (groups : Option (List GroupDict)) (response : Option GroupsResponse)

/-- The selection phase of `_extract_group_info_from_response`
(vk_api_client.py, lines 161-180): first element of a non-empty list, first
element of a non-empty `groups` list, or recursion into a nested
`response`; anything else yields no candidate. -/
def pickGroupDict : GroupsResponse → Option GroupDict
  | .lst items => items.head?
  | .dct groups response =>
    match groups with
    | some (g :: _) => some g
    | _ =>
      match response with
      | some r => pickGroupDict r
      | none => none

/-- A normalized group record: after normalization all five fields are
present. -/
structure GroupInfo where
  id : Int
  name : String
  is_closed : Int
  members_count : Int
  screen_name : String
deriving DecidableEq

/-- The normalization phase of `_extract_group_info_from_response`
(vk_api_client.py, lines 182-191): `id` and `name` are mandatory;
`is_closed` defaults to 1, `members_count` to 0 and `screen_name` to
`club<id>`. -/
def normalizeGroup (d : GroupDict) : Option GroupInfo :=
  match d.id, d.name with
  | some i, some n =>
    some ⟨i, n, d.is_closed.getD 1, d.members_count.getD 0,
          d.screen_name.getD ("club" ++ toString i)⟩
  | _, _ => none

/-- `VKAPIClient._extract_group_info_from_response`: pick a candidate
dictionary, then normalize it. -/
def extract_group_info_from_response (r : GroupsResponse) : Option GroupInfo :=
  (pickGroupDict r).bind normalizeGroup

/-! ## Paginated harvester: `VKAPIClient.get_group_members` -/

/-- One harvested member record, with exactly the fields the analyzer reads
(analytics.py); absent dictionary keys are `none` and `sex` carries the
source's `member.get('sex', 0)` default through `0`. -/
structure Member where
  sex : Int
  bdate : String
  city : Option String
  interests : Option String
  activities : Option String
  books : Option String
  music : Option String
  movies : Option String
  games : Option String
deriving DecidableEq

/-- A member page source: `offset` and `count` to the list of `items` of one
`groups.getMembers` call.  `none` collapses the three page-level failures of
the source (request failure, non-dictionary response, missing `items`),
which all `break` identically in vk_api_client.py lines 317-324. -/
abbrev PageSource : Type := Nat → Nat → Option (List Member)

/-- The harvesting loop of `VKAPIClient.get_group_members` (vk_api_client.py,
lines 304-343), instrumented with the number of `groups.getMembers` calls
issued: while fewer than `limit` members are accumulated, fetch a page of
`min limit 1000`; a failed or empty page stops; a short page stops after
being appended; reaching `limit` truncates to `limit`. -/
def getMembersLoop (src : PageSource) (limit : Nat) (members : List Member)
    (offset calls : Nat) : List Member × Nat :=
  if h : members.length < limit then
    let count := min limit 1000
    match src offset count with
    | none => (members, calls + 1)
    | some batch =>
      if hb : batch.isEmpty then (members, calls + 1)
      else
        let members' := members ++ batch
        if batch.length < count then (members', calls + 1)
        else if limit ≤ members'.length then (members'.take limit, calls + 1)
        else getMembersLoop src limit members' (offset + batch.length) (calls + 1)
  else (members, calls)
termination_by limit - members.length
decreasing_by
  simp only [List.length_append]
  have hb' : 0 < batch.length := by
    cases batch with
    | nil => simp at hb
    | cons x xs => simp
  omega

/-- `VKAPIClient.get_group_members`: run the loop from an empty accumulator,
returning the members together with the number of member-fetch calls. -/
def get_group_members (src : PageSource) (limit : Nat) : List Member × Nat :=
  getMembersLoop src limit [] 0 0

/-- A well-behaved source backed by a fixed member list `L`: each page is the
slice `L[offset : offset+count]`. -/
def sliceSource (L : List Member) : PageSource :=
  fun offset count => some ((L.drop offset).take count)

/-! ## Analyze-pipeline front end: `cmd_analyze` (bot.py, lines 338-372) -/

/-- Outcome of the member-harvesting stage of `cmd_analyze`. -/
inductive AnalyzeOutcome where
  | groupClosed
  | groupEmpty
  | noMembers
  | harvested (members : List Member)
deriving DecidableEq

/-- The guard-and-harvest stage of `cmd_analyze` (bot.py, lines 338-384):
a group with `is_closed != 0` or `members_count == 0` short-circuits before
any member fetch; otherwise the harvester runs with
`limit = min(1000, members_count)`.  The second component counts
`groups.getMembers` calls issued. -/
def cmd_analyze_harvest (g : GroupInfo) (src : PageSource) : AnalyzeOutcome × Nat :=
  if g.is_closed ≠ 0 then (.groupClosed, 0)
  else if g.members_count = 0 then (.groupEmpty, 0)
  else
    let (ms, calls) := get_group_members src (min 1000 g.members_count.toNat)
    (if ms.isEmpty then .noMembers else .harvested ms, calls)

/-! ## Rounding and counters -/

/-- Round to the nearest integer, ties to even: the rounding of Python's
`round`.  (`round(x, 1)` acts on IEEE doubles; it is modelled here exactly
over `ℚ`.) -/
def halfEven (x : ℚ) : ℤ :=
  let f := ⌊x⌋
  let r := x - f
  if r < 1 / 2 then f
  else if 1 / 2 < r then f + 1
  else if f % 2 = 0 then f else f + 1

/-- Python `round(x, 1)`. -/
def pyRound1 (x : ℚ) : ℚ := (halfEven (10 * x) : ℚ) / 10

/-- A `collections.Counter` over strings, kept in insertion order (Python
dictionaries preserve insertion order, which is what `most_common` ties
fall back to). -/
abbrev Counter : Type := List (String × Nat)

/-- `counter[key] += 1`: bump an existing entry in place, or append a new
entry with count 1. -/
def counterAdd (c : Counter) (k : String) : Counter :=
  match c with
  | [] => [(k, 1)]
  | (k', n) :: rest => if k' = k then (k', n + 1) :: rest else (k', n) :: counterAdd rest k

/-- Stable insertion of one entry into a count-descending list: the entry
lands after every earlier entry of greater-or-equal count. -/
def insertDesc (x : String × Nat) : List (String × Nat) → List (String × Nat)
  | [] => [x]
  | y :: ys => if x.2 ≤ y.2 then y :: insertDesc x ys else x :: y :: ys

/-- Stable sort by count, descending: `sorted(items, key=count, reverse=True)`
as used by `Counter.most_common`. -/
def sortCountDesc (l : List (String × Nat)) : List (String × Nat) :=
  l.foldl (fun acc x => insertDesc x acc) []

/-- `Counter.most_common(n)`. -/
def mostCommon (n : Nat) (c : Counter) : List (String × Nat) :=
  (sortCountDesc c).take n

/-- Deduplication keeping first occurrences.  Python's `list(set(...))` and
set iteration leave the order unspecified; first-occurrence order is the
fixed representative used throughout this embedding. -/
def dedupFirstAux (seen : List String) : List String → List String
  | [] => []
  | x :: xs =>
    if x ∈ seen then dedupFirstAux seen xs
    else x :: dedupFirstAux (x :: seen) xs

def dedupFirst (l : List String) : List String := dedupFirstAux [] l

/-! ## Demographic analyzer: `AudienceAnalyzer` (analytics.py) -/

/-- The current date, `datetime.now()` made explicit. -/
structure PyDate where
  year : Int
  month : Int
  day : Int
deriving DecidableEq

/-- `AudienceAnalyzer.extract_age` (analytics.py, lines 16-34): split the
birthdate on dots; with at least two parts, parse day and month; a year is
parsed only from exactly three parts; a (truthy) year yields
`current_year - year`, minus one when the current date precedes the birth
day/month; only ages within [12, 120] are returned. -/
def extract_age (t : PyDate) (bdate : String) : Option Int :=
  if bdate = "" then none
  else
    let parts := splitOnChar '.' bdate.data
    if parts.length ≥ 2 then
      match pyInt? (parts.getD 0 []), pyInt? (parts.getD 1 []) with
      | some day, some month =>
        if parts.length = 3 then
          match pyInt? (parts.getD 2 []) with
          | some year =>
            if year ≠ 0 then
              let age := t.year - year -
                (if t.month < month ∨ (t.month = month ∧ t.day < day) then 1 else 0)
              if 12 ≤ age ∧ age ≤ 120 then some age else none
            else none
          | none => none
        else none
      | _, _ => none
    else none

/-- The fixed age brackets of `AudienceAnalyzer.__init__`. -/
def ageGroupsDef : List (String × Int × Int) :=
  [("12-17", 12, 17), ("18-24", 18, 24), ("25-34", 25, 34),
   ("35-44", 35, 44), ("45+", 45, 120)]

/-- One comma-separated free-text field, tokenized as in
`categorize_interests`: split on commas, keep tokens whose strip is
non-empty, as their stripped lowercase form. -/
def tokenizeField (s : String) : List String :=
  (splitOnChar ',' s.data).filterMap fun tok =>
    let t := trimChars tok
    if t.isEmpty then none else some (String.mk (lowerChars t))

/-- The interest accumulation loop of `categorize_interests` (analytics.py,
lines 37-43): tokenize the six free-text fields in order, skipping absent or
empty ones. -/
def rawInterestTokens (m : Member) : List String :=
  let fields := [m.interests, m.activities, m.books, m.music, m.movies, m.games]
  fields.foldl (fun acc v =>
    match v with
    | some s => if s ≠ "" then acc ++ tokenizeField s else acc
    | none => acc) []

/-- `AudienceAnalyzer.categorize_interests` (analytics.py, lines 36-45):
the accumulated tokens of the six fields, deduplicated (`list(set(...))`,
represented in first-occurrence order). -/
def categorize_interests (m : Member) : List String :=
  dedupFirst (rawInterestTokens m)

/-- Mutable counters of the aggregation loop in `analyze_audience`. -/
structure AnalyzeCounts where
  male : Nat
  female : Nat
  unknown : Nat
  ageCounts : List ((String × Int × Int) × Nat)
  cities : Counter
  interests : Counter
deriving DecidableEq

/-- Bump the first bracket containing `a` (the loop `break`s after the first
hit; the brackets are in fact disjoint). -/
def incBracket (a : Int) : List ((String × Int × Int) × Nat) → List ((String × Int × Int) × Nat)
  | [] => []
  | (g, n) :: rest =>
    if g.2.1 ≤ a ∧ a ≤ g.2.2 then (g, n + 1) :: rest
    else (g, n) :: incBracket a rest

def initCounts : AnalyzeCounts :=
  ⟨0, 0, 0, ageGroupsDef.map (fun g => (g, 0)), [], []⟩

/-- The body of the member loop of `analyze_audience` (analytics.py, lines
61-83) for one member: gender tally, age-bracket tally (`if age:` skips a
falsy result), city tally (`if city:` skips absent or empty titles) and
per-member-deduplicated interest tallies. -/
def stepMember (t : PyDate) (st : AnalyzeCounts) (m : Member) : AnalyzeCounts :=
  let st1 :=
    if m.sex = 2 then { st with male := st.male + 1 }
    else if m.sex = 1 then { st with female := st.female + 1 }
    else { st with unknown := st.unknown + 1 }
  let st2 :=
    match extract_age t m.bdate with
    | some a => if a ≠ 0 then { st1 with ageCounts := incBracket a st1.ageCounts } else st1
    | none => st1
  let st3 :=
    match m.city with
    | some c => if c ≠ "" then { st2 with cities := counterAdd st2.cities c } else st2
    | none => st2
  { st3 with interests := (categorize_interests m).foldl counterAdd st3.interests }

def analyzeCounts (t : PyDate) (members : List Member) : AnalyzeCounts :=
  members.foldl (stepMember t) initCounts

/-- The audience profile as `analyze_audience` actually populates it (the
`recommendations` list, which no claim concerns, is not modelled).  Gender
and age-bracket entries are one-decimal percentages; cities are the top-10
as percentages; interests are the top-20 as raw counts. -/
structure Analysis where
  total_members : Nat
  gender_male : ℚ
  gender_female : ℚ
  gender_unknown : ℚ
  age_groups : List (String × ℚ)
  cities : List (String × ℚ)
  interests : List (String × Nat)
deriving DecidableEq

/-- `AudienceAnalyzer.analyze_audience` (analytics.py, lines 47-100): the
empty member list returns the empty dictionary (modelled as `none`);
otherwise counts are accumulated and, under the (here always true)
`total > 0` guard, converted: gender and age-bracket counts to one-decimal
percentages of `total`, cities to the top-10 as percentages of `total`,
interests to the top-20 raw counts. -/
def analyze_audience (t : PyDate) (members : List Member) : Option Analysis :=
  if members.isEmpty then none
  else
    let total := members.length
    let st := analyzeCounts t members
    some
      { total_members := total
        gender_male := pyRound1 ((st.male : ℚ) / total * 100)
        gender_female := pyRound1 ((st.female : ℚ) / total * 100)
        gender_unknown := pyRound1 ((st.unknown : ℚ) / total * 100)
        age_groups := st.ageCounts.map fun gn => (gn.1.1, pyRound1 ((gn.2 : ℚ) / total * 100))
        cities := (mostCommon 10 st.cities).map fun cn => (cn.1, pyRound1 ((cn.2 : ℚ) / total * 100))
        interests := mostCommon 20 st.interests }

/-! ## Quality report: `send_quality_report` (bot.py, lines 805-896) -/

/-- The numeric scores `send_quality_report` derives and displays. -/
structure QualityScores where
  quality_score : ℚ
  completeness_score : ℚ
  activity_score : ℚ
  interests_score : ℚ
  gender_score : ℚ
deriving DecidableEq

/-- The score computations of `send_quality_report` (bot.py, lines 807-868)
applied to a profile produced by `analyze_audience`:
`analysis.get('audience_quality_score', 0)`,
`analysis.get('profile_completeness', {}).get('average_completeness', 0)` and
`analysis.get('social_activity', {}).get('active_users_percentage', 0)` read
keys `analyze_audience` never sets, so they are their literal defaults 0;
`interests.get('total_categories_found', 0)` reads the top-20
interest-count dictionary, so it hits only an interest literally named
`total_categories_found`; the gender factor is computed from the profile's
gender percentages. -/
def send_quality_report_scores (a : Analysis) : QualityScores :=
  let quality_score : ℚ := 0
  let avg_completeness : ℚ := 0
  let completeness_score := avg_completeness / 100 * 20
  let active_percentage : ℚ := 0
  let activity_score := active_percentage / 100 * 20
  let total_categories : ℚ := ((a.interests.lookup "total_categories_found").getD 0 : Nat)
  let interests_score := min 10 (total_categories * 2)
  let gender_diff := |a.gender_male - a.gender_female|
  let gender_score := max 0 (10 - gender_diff / 10)
  ⟨quality_score, completeness_score, activity_score, interests_score, gender_score⟩

/-- Modelled from the spec (claim C1): the claimed deterministic weighted
composite — completeness up to 20 points linearly, activity up to 20 points
linearly, 2 points per distinct interest category capped at 10, and gender
balance 10 minus one point per 10-percentage-point male/female gap, floored
at 0. -/
def specQualityComposite (completeness activity : ℚ) (categories : Nat)
    (malePct femalePct : ℚ) : ℚ :=
  completeness / 100 * 20 + activity / 100 * 20 +
    min 10 (2 * (categories : ℚ)) + max 0 (10 - |malePct - femalePct| / 10)

/-! ## Profile comparator: `AudienceAnalyzer.compare_audiences` -/

/-- `AudienceAnalyzer.compare_audiences` (analytics.py, lines 125-161): four
independent 25-point checks — male-share delta below 10, at least 3 of the
first profile's age brackets within 5 points (the second profile's bracket
is read by key; profiles built by `analyze_audience` always carry the five
fixed brackets, modelled as a lookup defaulting to 0), at least 2 shared
city keys, at least 5 shared interest keys.  Returns
`min(similarity_score, 100)` and the satisfied-check descriptions. -/
def compare_audiences (a1 a2 : Analysis) : ℚ × List String :=
  let genderDiff := |a1.gender_male - a2.gender_male|
  let (s1, c1) : ℚ × List String :=
    if genderDiff < 10 then (25, ["Схожее гендерное распределение"]) else (0, [])
  let ageSimilarity :=
    (a1.age_groups.filter fun gv =>
      |gv.2 - ((a2.age_groups.lookup gv.1).getD 0)| < 5).length
  let (s2, c2) : ℚ × List String :=
    if 3 ≤ ageSimilarity then (25, ["Схожие возрастные группы"]) else (0, [])
  let commonCities := (dedupFirst (a1.cities.map Prod.fst)).filter (· ∈ a2.cities.map Prod.fst)
  let (s3, c3) : ℚ × List String :=
    if 2 ≤ commonCities.length then
      (25, ["Общие города: " ++ String.intercalate ", " (commonCities.take 3)])
    else (0, [])
  let commonInterests :=
    (dedupFirst (a1.interests.map Prod.fst)).filter (· ∈ a2.interests.map Prod.fst)
  let (s4, c4) : ℚ × List String :=
    if 5 ≤ commonInterests.length then (25, ["Схожие интересы аудитории"]) else (0, [])
  (min (s1 + s2 + s3 + s4) 100, c1 ++ c2 ++ c3 ++ c4)

/-! ## Claim theorems -/

/-- C2: the identifier resolver's actual behavior on the three inputs of the
claim: `"https://vk.com/public123456"` resolves to the numeric id `"123456"`
and `"not a valid string!!"` is unresolvable (`None`), as claimed; but
`"@durov"` is also unresolvable (`None`), not the alias `"durov"` — after the
`@` is stripped, the bare alias gets `https://` prepended, the whole alias is
parsed as the network location, and the empty path falls through to `None`,
contradicting the `@group_name` format listed in the function's own
docstring. -/
theorem c2_resolver_actual_behavior :
    extract_group_id "https://vk.com/public123456" = some "123456" ∧
    extract_group_id "not a valid string!!" = none ∧
    extract_group_id "@durov" = none := by decide

/-- C8 counterexample: a remote invalid-token error (VK error code 5) is not
mapped to any named outcome — `make_request` returns the same `None` as a
transient timeout, so the invalid-token condition is not distinguishable
from transient errors. -/
theorem c8_invalid_token_not_distinguished :
    make_request (α := Unit) (.ok 200 (some ⟨some 5, none⟩)) = .failure ∧
    make_request (α := Unit) .timeout = .failure := by decide

/-- C8 (amended): `make_request` maps remote codes 15/18/100/113 to the named
outcomes `group_closed`/`group_deleted`/`invalid_param`/`invalid_id`, each
distinguishable from the `None` of transient failures; every other remote
code — including the invalid-token code 5 — yields the same `None` as a
timeout or network error. -/
theorem c8_error_mapping {α : Type} (p : Option α) (c : Int)
    (hc : c ≠ 15 ∧ c ≠ 18 ∧ c ≠ 100 ∧ c ≠ 113) :
    make_request (.ok 200 (some ⟨some 15, p⟩)) = .named "group_closed" "Группа закрыта" ∧
    make_request (.ok 200 (some ⟨some 18, p⟩)) = .named "group_deleted" "Группа удалена" ∧
    make_request (.ok 200 (some ⟨some 100, p⟩)) = .named "invalid_param" "Неверный ID группы" ∧
    make_request (.ok 200 (some ⟨some 113, p⟩)) = .named "invalid_id" "Неверный ID группы" ∧
    make_request (.ok 200 (some ⟨some c, p⟩)) = .failure ∧
    make_request (α := α) .timeout = .failure ∧
    make_request (α := α) .netError = .failure ∧
    (∀ e m, (MRResult.named e m : MRResult α) ≠ .failure) := by
  obtain ⟨h15, h18, h100, h113⟩ := hc
  refine ⟨?_, ?_, ?_, ?_, ?_, rfl, rfl, fun e m h => by cases h⟩ <;>
    simp [make_request, h15, h18, h100, h113]

/-- C8 witness: the amended mapping instantiated at the invalid-token code 5
with a unit payload. -/
theorem c8_error_mapping_witness :
    make_request (α := Unit) (.ok 200 (some ⟨some 15, none⟩))
        = .named "group_closed" "Группа закрыта" ∧
    make_request (α := Unit) (.ok 200 (some ⟨some 18, none⟩))
        = .named "group_deleted" "Группа удалена" ∧
    make_request (α := Unit) (.ok 200 (some ⟨some 100, none⟩))
        = .named "invalid_param" "Неверный ID группы" ∧
    make_request (α := Unit) (.ok 200 (some ⟨some 113, none⟩))
        = .named "invalid_id" "Неверный ID группы" ∧
    make_request (α := Unit) (.ok 200 (some ⟨some 5, none⟩)) = .failure ∧
    make_request (α := Unit) .timeout = .failure ∧
    make_request (α := Unit) .netError = .failure ∧
    (∀ e m, (MRResult.named e m : MRResult Unit) ≠ .failure) :=
  c8_error_mapping (α := Unit) none 5 (by decide)

/-- C9 counterexample: for the empty member list the aggregator returns the
empty dictionary — no profile fields at all — rather than a well-formed
profile whose fields are present with zero values. -/
theorem c9_empty_profile_counterexample :
    analyze_audience ⟨2026, 10, 12⟩ [] = none := rfl

/-- C9 (amended): for every current date, the empty member list makes
`analyze_audience` return the empty dictionary (`none`): the total-members,
gender, age-bracket, city and interest fields are not present at all, and
downstream consumers read them with `.get` defaults. -/
theorem c9_empty_profile_amended (t : PyDate) :
    analyze_audience t [] = none := rfl

/-- C9 witness: the amended statement at a concrete date. -/
theorem c9_empty_profile_amended_witness :
    analyze_audience ⟨2025, 1, 1⟩ [] = none :=
  c9_empty_profile_amended ⟨2025, 1, 1⟩

/-- C4: a group record with `is_closed ≠ 0` (closed) or `members_count = 0`
(empty) makes the analyze pipeline short-circuit with the closed-group
(resp. empty-group) outcome, issuing zero `groups.getMembers` calls. -/
theorem c4_short_circuit (g : GroupInfo) (src : PageSource) :
    (g.is_closed ≠ 0 → cmd_analyze_harvest g src = (.groupClosed, 0)) ∧
    (g.is_closed = 0 → g.members_count = 0 → cmd_analyze_harvest g src = (.groupEmpty, 0)) := by
  constructor
  · intro h; simp [cmd_analyze_harvest, h]
  · intro h1 h2; simp [cmd_analyze_harvest, h1, h2]

/-- C4 witness: a closed group and an open empty group, against a source
with no members. -/
theorem c4_short_circuit_witness :
    cmd_analyze_harvest ⟨7, "g", 1, 10, "club7"⟩ (sliceSource []) = (.groupClosed, 0) ∧
    cmd_analyze_harvest ⟨7, "g", 0, 0, "club7"⟩ (sliceSource []) = (.groupEmpty, 0) :=
  ⟨(c4_short_circuit _ _).1 (by decide), (c4_short_circuit _ _).2 rfl rfl⟩

set_option maxHeartbeats 1000000 in
/-- C7 counterexample: a profile with no recorded age brackets, no top cities
and no top interests compared with itself scores 25 with a single common
characteristic — only the gender check passes on identical profiles — not
100 with 4 entries. -/
theorem c7_self_compare_counterexample :
    compare_audiences ⟨0, 0, 0, 0, [], [], []⟩ ⟨0, 0, 0, 0, [], [], []⟩
      = (25, ["Схожее гендерное распределение"]) ∧
    (25 : ℚ) ≠ 100 := by
  constructor
  · simp only [compare_audiences, dedupFirst, dedupFirstAux]
    norm_num
  · norm_num

/-- The C1 failing input: a harvest of one male and one female member with no
other data. -/
def c1Members : List Member :=
  [⟨2, "", none, none, none, none, none, none, none⟩,
   ⟨1, "", none, none, none, none, none, none, none⟩]

/-- C1: the profile the pipeline produces contains no quality score — for a
balanced two-member harvest the headline score read by
`send_quality_report` is the `.get` default 0, while the claimed weighted
composite evaluates to 10 (the gender-balance factor alone; the report's
own gender-balance factor line also shows 10 out of 10, contradicting its
0/100 headline). -/
theorem c1_quality_score_missing :
    (analyze_audience ⟨2026, 10, 12⟩ c1Members).map
        (fun A => ((send_quality_report_scores A).quality_score,
                   (send_quality_report_scores A).gender_score,
                   specQualityComposite 0 0 A.interests.length A.gender_male A.gender_female))
      = some (0, 10, 10) ∧ (0 : ℚ) ≠ 10 := by
  have hc : analyzeCounts ⟨2026, 10, 12⟩ c1Members =
      ⟨1, 1, 0, ageGroupsDef.map (fun g => (g, 0)), [], []⟩ := by decide
  refine ⟨?_, by norm_num⟩
  simp only [analyze_audience, hc, send_quality_report_scores, specQualityComposite,
    mostCommon, sortCountDesc, List.lookup]
  norm_num [c1Members]

/-- C6 counterexample: two members who both list the single interest `music`
produce the interests entry `("music", 2)` — the raw member count — where the
claimed percentage of total members would be `100`. -/
theorem c6_interests_are_counts_counterexample :
    (analyze_audience ⟨2026, 10, 12⟩
        [⟨0, "", none, some "music", none, none, none, none, none⟩,
         ⟨0, "", none, some "music", none, none, none, none, none⟩]).map Analysis.interests
      = some [("music", 2)] ∧
    (2 : ℚ) ≠ pyRound1 ((2 : ℚ) / 2 * 100) := by
  have hc : analyzeCounts ⟨2026, 10, 12⟩
        [⟨0, "", none, some "music", none, none, none, none, none⟩,
         ⟨0, "", none, some "music", none, none, none, none, none⟩] =
      ⟨0, 0, 2, ageGroupsDef.map (fun g => (g, 0)), [], [("music", 2)]⟩ := by decide
  refine ⟨?_, by norm_num [pyRound1, halfEven]⟩
  simp only [analyze_audience, hc, mostCommon, sortCountDesc, insertDesc]
  norm_num [insertDesc]

/-- With an effective limit of at most 1000, the first page already settles
the harvest, so the loop returns at most `limit` members whatever the page
source replies. -/
lemma getGroupMembers_length_le (src : PageSource) (limit : Nat) (hl : limit ≤ 1000) :
    ((get_group_members src limit).1).length ≤ limit := by
  have hmin : min limit 1000 = limit := Nat.min_eq_left hl
  unfold get_group_members
  rw [getMembersLoop]
  simp only [hmin, List.nil_append, List.length_nil]
  split
  · split
    · simp
    · split
      · simp
      · split
        · rename_i hless
          simpa using Nat.le_of_lt hless
        · split
          · simpa using Nat.min_le_left limit _
          · rename_i hge hlt
            omega
  · simp

/-- Against a well-behaved source backed by the member list `L`, a harvest
with effective limit at most 1000 returns exactly the first `limit` members
of `L`. -/
lemma getGroupMembers_sliceSource (L : List Member) (limit : Nat) (hl : limit ≤ 1000) :
    (get_group_members (sliceSource L) limit).1 = L.take limit := by
  have hmin : min limit 1000 = limit := Nat.min_eq_left hl
  unfold get_group_members
  rw [getMembersLoop]
  simp only [hmin, sliceSource, List.drop_zero, List.nil_append, List.length_nil]
  by_cases hpos : 0 < limit
  · rw [dif_pos hpos]
    by_cases hemp : (List.take limit L).isEmpty = true
    · rw [dif_pos hemp]
      simp [List.isEmpty_iff.mp hemp]
    · rw [dif_neg hemp]
      by_cases hlt : (List.take limit L).length < limit
      · rw [if_pos hlt]
      · rw [if_neg hlt, if_pos (Nat.le_of_not_lt hlt)]
        simp [List.take_take]
  · rw [dif_neg hpos]
    have h0 : limit = 0 := by omega
    simp [h0]

/-- C3: the harvest issued by the analyze pipeline (requested limit 1000,
effective limit `min(1000, members_count)`) returns at most
`min(requested, member_count, 1000)` records against any page source; and
against a source supplying all `memberCount ≤ 1000` members, both the
pipeline call and a direct requested-limit-1000 call return exactly the
whole member list — in particular exactly 50 records when the group reports
50 members. -/
theorem c3_harvest_limits (src : PageSource) (memberCount : Nat) (L : List Member)
    (hL : L.length ≤ 1000) :
    ((get_group_members src (min 1000 memberCount)).1).length ≤ min 1000 memberCount ∧
    (get_group_members (sliceSource L) (min 1000 L.length)).1 = L ∧
    (get_group_members (sliceSource L) 1000).1 = L := by
  refine ⟨getGroupMembers_length_le _ _ (Nat.min_le_left _ _), ?_, ?_⟩
  · rw [getGroupMembers_sliceSource _ _ (Nat.min_le_left _ _), Nat.min_eq_right hL,
      List.take_length]
  · rw [getGroupMembers_sliceSource _ _ le_rfl, List.take_of_length_le hL]

/-- The C3 witness group: 50 identical anonymous members. -/
def c3FiftyMembers : List Member :=
  List.replicate 50 ⟨0, "", none, none, none, none, none, none, none⟩

/-- C3 witness: a harvest with requested limit 1000 against a group of 50
members, all supplied by the source, returns exactly the 50 records. -/
theorem c3_harvest_limits_witness :
    (get_group_members (sliceSource c3FiftyMembers) (min 1000 c3FiftyMembers.length)).1
        = c3FiftyMembers ∧
    (get_group_members (sliceSource c3FiftyMembers) 1000).1 = c3FiftyMembers ∧
    c3FiftyMembers.length = 50 :=
  ⟨(c3_harvest_limits (sliceSource c3FiftyMembers) 50 c3FiftyMembers
      (by simp [c3FiftyMembers])).2.1,
   (c3_harvest_limits (sliceSource c3FiftyMembers) 50 c3FiftyMembers
      (by simp [c3FiftyMembers])).2.2,
   by simp [c3FiftyMembers]⟩

/-- C10: every group record returned by `_extract_group_info_from_response`
carries all five fields `id`, `name`, `is_closed`, `members_count` and
`screen_name` (the record type is total); a source dictionary omitting
`is_closed` is normalized to 1 (closed) and one omitting `members_count` to
0 (and `screen_name` to `club<id>`), so a group whose openness — or, for an
open group, whose size — is unreported is rejected by the analyze
pipeline's open/non-empty precondition with zero member-fetch calls. -/
theorem c10_group_record_defaults (r : GroupsResponse) (g : GroupInfo)
    (h : extract_group_info_from_response r = some g) :
    ∃ d, pickGroupDict r = some d ∧ normalizeGroup d = some g ∧
      (d.is_closed = none → g.is_closed = 1) ∧
      (d.members_count = none → g.members_count = 0) ∧
      (d.screen_name = none → g.screen_name = "club" ++ toString g.id) ∧
      (∀ src : PageSource, d.is_closed = none →
        cmd_analyze_harvest g src = (.groupClosed, 0)) ∧
      (∀ src : PageSource, d.is_closed = some 0 → d.members_count = none →
        cmd_analyze_harvest g src = (.groupEmpty, 0)) := by
  obtain ⟨d, hd, hn⟩ := Option.bind_eq_some.mp h
  have hn' := hn
  unfold normalizeGroup at hn'
  cases hid : d.id with
  | none => rw [hid] at hn'; cases hn'
  | some i =>
    cases hname : d.name with
    | none => rw [hid, hname] at hn'; cases hn'
    | some nm =>
      rw [hid, hname] at hn'
      injection hn' with hg
      refine ⟨d, hd, hn, ?_, ?_, ?_, ?_, ?_⟩
      · intro hc; rw [← hg]; simp [hc]
      · intro hm; rw [← hg]; simp [hm]
      · intro hs; rw [← hg]; simp [hs]
      · intro src hc
        have h1 : g.is_closed = 1 := by rw [← hg]; simp [hc]
        simp [cmd_analyze_harvest, h1]
      · intro src hc hm
        have h1 : g.is_closed = 0 := by rw [← hg]; simp [hc]
        have h2 : g.members_count = 0 := by rw [← hg]; simp [hm]
        simp [cmd_analyze_harvest, h1, h2]

/-- C10 witness: a bare-list response whose single group dictionary omits
`is_closed`, `members_count` and `screen_name`. -/
theorem c10_group_record_defaults_witness :
    ∃ d, pickGroupDict (GroupsResponse.lst [⟨some 5, some "g", none, none, none⟩]) = some d ∧
      normalizeGroup d = some ⟨5, "g", 1, 0, "club5"⟩ ∧
      (d.is_closed = none → GroupInfo.is_closed ⟨5, "g", 1, 0, "club5"⟩ = 1) ∧
      (d.members_count = none → GroupInfo.members_count ⟨5, "g", 1, 0, "club5"⟩ = 0) ∧
      (d.screen_name = none → GroupInfo.screen_name ⟨5, "g", 1, 0, "club5"⟩
        = "club" ++ toString (GroupInfo.id ⟨5, "g", 1, 0, "club5"⟩)) ∧
      (∀ src : PageSource, d.is_closed = none →
        cmd_analyze_harvest ⟨5, "g", 1, 0, "club5"⟩ src = (.groupClosed, 0)) ∧
      (∀ src : PageSource, d.is_closed = some 0 → d.members_count = none →
        cmd_analyze_harvest ⟨5, "g", 1, 0, "club5"⟩ src = (.groupEmpty, 0)) :=
  c10_group_record_defaults (.lst [⟨some 5, some "g", none, none, none⟩])
    ⟨5, "g", 1, 0, "club5"⟩ (by decide)

/-- Deduplication only keeps elements of the input list. -/
lemma mem_dedupFirstAux {x : String} :
    ∀ {seen l : List String}, x ∈ dedupFirstAux seen l → x ∈ l := by
  intro seen l
  induction l generalizing seen with
  | nil => simp [dedupFirstAux]
  | cons y ys ih =>
    simp only [dedupFirstAux]
    split
    · intro h
      exact List.mem_cons_of_mem _ (ih h)
    · intro h
      rcases List.mem_cons.mp h with h | h
      · exact h ▸ List.mem_cons_self _ _
      · exact List.mem_cons_of_mem _ (ih h)

lemma mem_dedupFirst {x : String} {l : List String} (h : x ∈ dedupFirst l) : x ∈ l :=
  mem_dedupFirstAux h

/-- In an association list with duplicate-free keys, `lookup` finds every
entry's own value. -/
lemma lookup_of_mem_nodup {l : List (String × ℚ)} (hn : (l.map Prod.fst).Nodup)
    {gv : String × ℚ} (hm : gv ∈ l) : l.lookup gv.1 = some gv.2 := by
  induction l with
  | nil => cases hm
  | cons hd tl ih =>
    simp only [List.map_cons, List.nodup_cons] at hn
    rcases List.mem_cons.mp hm with rfl | hm2
    · simp [List.lookup]
    · have hne : hd.1 ≠ gv.1 := by
        intro he
        exact hn.1 (he ▸ List.mem_map_of_mem Prod.fst hm2)
      have hbeq : (gv.1 == hd.1) = false := beq_eq_false_iff_ne.mpr (Ne.symm hne)
      rw [List.lookup, hbeq]
      exact ih hn.2 hm2

/-- C7 (amended): comparing a profile with itself yields similarity 100 and
exactly 4 common-characteristics entries, provided the profile lists at
least 3 age brackets without duplicate bracket keys (profiles built by
`analyze_audience` always carry the five fixed brackets), at least 2 top
cities and at least 5 top interests; with fewer cities or interests the
city/interest checks fail even on identical profiles. -/
theorem c7_self_similarity (P : Analysis)
    (hage_nodup : (P.age_groups.map Prod.fst).Nodup)
    (hage3 : 3 ≤ P.age_groups.length)
    (hcities : 2 ≤ (dedupFirst (P.cities.map Prod.fst)).length)
    (hints : 5 ≤ (dedupFirst (P.interests.map Prod.fst)).length) :
    (compare_audiences P P).1 = 100 ∧ ((compare_audiences P P).2).length = 4 := by
  have e1 : (|P.gender_male - P.gender_male| < 10) = True :=
    eq_true (by rw [sub_self, abs_zero]; norm_num)
  have e2 : (P.age_groups.filter fun gv =>
      |gv.2 - ((P.age_groups.lookup gv.1).getD 0)| < 5) = P.age_groups := by
    rw [List.filter_eq_self]
    intro gv hgv
    rw [lookup_of_mem_nodup hage_nodup hgv]
    simp
  have e3 : ((dedupFirst (P.cities.map Prod.fst)).filter
      (· ∈ P.cities.map Prod.fst)) = dedupFirst (P.cities.map Prod.fst) := by
    rw [List.filter_eq_self]
    intro a ha
    simpa using mem_dedupFirst ha
  have e4 : ((dedupFirst (P.interests.map Prod.fst)).filter
      (· ∈ P.interests.map Prod.fst)) = dedupFirst (P.interests.map Prod.fst) := by
    rw [List.filter_eq_self]
    intro a ha
    simpa using mem_dedupFirst ha
  have e2' : (3 ≤ P.age_groups.length) = True := eq_true hage3
  have e3' : (2 ≤ (dedupFirst (P.cities.map Prod.fst)).length) = True := eq_true hcities
  have e4' : (5 ≤ (dedupFirst (P.interests.map Prod.fst)).length) = True := eq_true hints
  simp only [compare_audiences, e1, e2, e3, e4, e2', e3', e4', if_true]
  norm_num

/-- C7 witness: a concrete profile with the five fixed brackets, two top
cities and five top interests, compared with itself. -/
theorem c7_self_similarity_witness :
    (compare_audiences
        ⟨10, 50, 50, 0,
         [("12-17", 20), ("18-24", 20), ("25-34", 20), ("35-44", 20), ("45+", 20)],
         [("a", 30), ("b", 20)],
         [("i1", 5), ("i2", 4), ("i3", 3), ("i4", 2), ("i5", 1)]⟩
        ⟨10, 50, 50, 0,
         [("12-17", 20), ("18-24", 20), ("25-34", 20), ("35-44", 20), ("45+", 20)],
         [("a", 30), ("b", 20)],
         [("i1", 5), ("i2", 4), ("i3", 3), ("i4", 2), ("i5", 1)]⟩).1 = 100 ∧
    ((compare_audiences
        ⟨10, 50, 50, 0,
         [("12-17", 20), ("18-24", 20), ("25-34", 20), ("35-44", 20), ("45+", 20)],
         [("a", 30), ("b", 20)],
         [("i1", 5), ("i2", 4), ("i3", 3), ("i4", 2), ("i5", 1)]⟩
        ⟨10, 50, 50, 0,
         [("12-17", 20), ("18-24", 20), ("25-34", 20), ("35-44", 20), ("45+", 20)],
         [("a", 30), ("b", 20)],
         [("i1", 5), ("i2", 4), ("i3", 3), ("i4", 2), ("i5", 1)]⟩).2).length = 4 :=
  c7_self_similarity _ (by decide) (by decide) (by decide) (by decide)

/-- Membership in the deduplicated list: kept iff present and not yet seen. -/
lemma mem_dedupFirstAux_iff {x : String} :
    ∀ {seen l : List String}, x ∈ dedupFirstAux seen l ↔ (x ∈ l ∧ x ∉ seen) := by
  intro seen l
  induction l generalizing seen with
  | nil => simp [dedupFirstAux]
  | cons y ys ih =>
    simp only [dedupFirstAux]
    split
    · rename_i hy
      rw [ih, List.mem_cons]
      constructor
      · rintro ⟨hx, hs⟩
        exact ⟨Or.inr hx, hs⟩
      · rintro ⟨hx | hx, hs⟩
        · exact absurd (hx ▸ hy) hs
        · exact ⟨hx, hs⟩
    · rename_i hy
      constructor
      · intro hmem
        rcases List.mem_cons.mp hmem with rfl | h2
        · exact ⟨List.mem_cons_self _ _, hy⟩
        · obtain ⟨hx, hs⟩ := ih.mp h2
          refine ⟨List.mem_cons_of_mem _ hx, fun hseen => hs ?_⟩
          exact List.mem_cons_of_mem _ hseen
      · rintro ⟨hx, hs⟩
        rcases List.mem_cons.mp hx with rfl | hx2
        · exact List.mem_cons_self _ _
        · by_cases hxy : x = y
          · exact hxy ▸ List.mem_cons_self _ _
          · refine List.mem_cons_of_mem _ (ih.mpr ⟨hx2, fun hmem => ?_⟩)
            rcases List.mem_cons.mp hmem with h | h
            · exact hxy h
            · exact hs h

lemma mem_dedupFirst_iff {x : String} {l : List String} : x ∈ dedupFirst l ↔ x ∈ l := by
  rw [dedupFirst, mem_dedupFirstAux_iff]
  simp

/-- The deduplicated list has no duplicates. -/
lemma nodup_dedupFirstAux : ∀ {seen l : List String}, (dedupFirstAux seen l).Nodup := by
  intro seen l
  induction l generalizing seen with
  | nil => simp [dedupFirstAux]
  | cons y ys ih =>
    simp only [dedupFirstAux]
    split
    · exact ih
    · rw [List.nodup_cons]
      refine ⟨fun hmem => ?_, ih⟩
      exact (mem_dedupFirstAux_iff.mp hmem).2 (List.mem_cons_self _ _)

lemma nodup_categorize_interests (m : Member) : (categorize_interests m).Nodup :=
  nodup_dedupFirstAux

/-- The count a `Counter` stores for a key (0 when absent). -/
def countOf (c : Counter) (k : String) : Nat := (c.lookup k).getD 0

lemma countOf_counterAdd (c : Counter) (k i : String) :
    countOf (counterAdd c k) i = countOf c i + (if i = k then 1 else 0) := by
  induction c with
  | nil =>
    by_cases h : i = k
    · subst h
      simp [counterAdd, countOf, List.lookup]
    · simp [counterAdd, countOf, List.lookup, beq_eq_false_iff_ne.mpr h, h]
  | cons hd tl ih =>
    obtain ⟨a, n⟩ := hd
    simp only [counterAdd]
    by_cases hak : a = k
    · rw [if_pos hak]
      by_cases hia : i = a
      · rw [countOf, countOf, List.lookup, List.lookup,
          show (i == a) = true from beq_iff_eq.mpr hia, if_pos (hia.trans hak)]
        rfl
      · rw [countOf, countOf, List.lookup, List.lookup,
          show (i == a) = false from beq_eq_false_iff_ne.mpr hia,
          if_neg (hak ▸ hia)]
        rfl
    · rw [if_neg hak]
      by_cases hia : i = a
      · rw [countOf, countOf, List.lookup, List.lookup,
          show (i == a) = true from beq_iff_eq.mpr hia,
          if_neg (fun hik => hak ((hia.symm.trans hik) ▸ rfl))]
        rfl
      · rw [countOf, countOf, List.lookup, List.lookup,
          show (i == a) = false from beq_eq_false_iff_ne.mpr hia]
        exact ih

/-- Folding `counterAdd` over a duplicate-free token list bumps each present
key exactly once. -/
lemma countOf_foldl_counterAdd (l : List String) (hn : l.Nodup) (c : Counter) (i : String) :
    countOf (l.foldl counterAdd c) i = countOf c i + (if i ∈ l then 1 else 0) := by
  induction l generalizing c with
  | nil => simp
  | cons x xs ih =>
    rw [List.nodup_cons] at hn
    rw [List.foldl_cons, ih hn.2, countOf_counterAdd]
    by_cases hix : i = x
    · subst hix
      simp [hn.1]
    · simp [hix, List.mem_cons]

/-- The interests counter after one member equals the previous counter with
that member's deduplicated interest list folded in; the gender, age and city
updates of the loop body do not touch it. -/
lemma stepMember_interests (t : PyDate) (st : AnalyzeCounts) (m : Member) :
    (stepMember t st m).interests = (categorize_interests m).foldl counterAdd st.interests := by
  simp only [stepMember]
  congr 1
  repeat' split
  all_goals rfl

/-- Per-member deduplicated counting: a member contributes at most one to
each interest count, so the aggregated count of an interest is the number
of members whose interest set contains it. -/
lemma analyzeCounts_interests_countP (t : PyDate) (members : List Member) (i : String) :
    countOf (analyzeCounts t members).interests i
      = members.countP (fun m => decide (i ∈ categorize_interests m)) := by
  suffices h : ∀ (st : AnalyzeCounts),
      countOf ((members.foldl (stepMember t) st).interests) i
        = countOf st.interests i
            + members.countP (fun m => decide (i ∈ categorize_interests m)) by
    have h0 : countOf initCounts.interests i = 0 := rfl
    rw [analyzeCounts, h initCounts, h0, Nat.zero_add]
  induction members with
  | nil => simp
  | cons m ms ih =>
    intro st
    rw [List.foldl_cons, ih, stepMember_interests,
      countOf_foldl_counterAdd _ (nodup_categorize_interests m), List.countP_cons]
    by_cases hm : i ∈ categorize_interests m
    · simp [hm]
      omega
    · simp [hm]

/-- `insertDesc` is insertion: the result is a permutation of consing. -/
lemma insertDesc_perm (x : String × Nat) (l : List (String × Nat)) :
    (insertDesc x l).Perm (x :: l) := by
  induction l with
  | nil => simp [insertDesc]
  | cons y ys ih =>
    simp only [insertDesc]
    split
    · exact (ih.cons y).trans (List.Perm.swap x y ys)
    · exact List.Perm.refl _

/-- Inserting into a count-descending list keeps it count-descending. -/
lemma sorted_insertDesc {x : String × Nat} {l : List (String × Nat)}
    (hl : List.Sorted (fun a b : String × Nat => b.2 ≤ a.2) l) :
    List.Sorted (fun a b : String × Nat => b.2 ≤ a.2) (insertDesc x l) := by
  induction l with
  | nil => simp [insertDesc]
  | cons y ys ih =>
    rw [List.sorted_cons] at hl
    obtain ⟨hy, hys⟩ := hl
    simp only [insertDesc]
    split
    · rename_i hxy
      rw [List.sorted_cons]
      refine ⟨fun b hb => ?_, ih hys⟩
      rcases List.mem_cons.mp ((insertDesc_perm x ys).mem_iff.mp hb) with rfl | hb2
      · exact hxy
      · exact hy b hb2
    · rename_i hxy
      rw [List.sorted_cons]
      refine ⟨fun b hb => ?_, List.sorted_cons.mpr ⟨hy, hys⟩⟩
      rcases List.mem_cons.mp hb with rfl | hb2
      · exact Nat.le_of_not_le hxy
      · exact le_trans (hy b hb2) (Nat.le_of_not_le hxy)

lemma sortCountDesc_foldl_perm :
    ∀ (l acc : List (String × Nat)),
      (l.foldl (fun acc x => insertDesc x acc) acc).Perm (acc ++ l) := by
  intro l
  induction l with
  | nil => simp
  | cons x xs ih =>
    intro acc
    rw [List.foldl_cons]
    refine (ih (insertDesc x acc)).trans ?_
    refine (((insertDesc_perm x acc).append_right xs).trans ?_)
    exact List.perm_middle.symm

/-- `most_common`'s sort is a permutation of the counter. -/
lemma sortCountDesc_perm (c : Counter) : (sortCountDesc c).Perm c := by
  simpa using sortCountDesc_foldl_perm c []

/-- `most_common`'s sort is count-descending. -/
lemma sortCountDesc_sorted (c : Counter) :
    List.Sorted (fun a b : String × Nat => b.2 ≤ a.2) (sortCountDesc c) := by
  rw [sortCountDesc]
  have h : ∀ (l acc : List (String × Nat)),
      List.Sorted (fun a b : String × Nat => b.2 ≤ a.2) acc →
      List.Sorted (fun a b : String × Nat => b.2 ≤ a.2)
        (l.foldl (fun acc x => insertDesc x acc) acc) := by
    intro l
    induction l with
    | nil => intro acc h; exact h
    | cons x xs ih =>
      intro acc hacc
      rw [List.foldl_cons]
      exact ih _ (sorted_insertDesc hacc)
  exact h c [] List.sorted_nil

/-- C6 (amended): the interest analyzer tokenizes the six comma-separated
free-text fields (trimmed, lowercased), counts repeat mentions at most once
per member — the aggregated count of an interest is the number of members
whose interest set contains it — and stores in the profile the top 20
entries of the count-descending stable sort of the counter as raw counts of
members (not as percentages of total members). -/
theorem c6_interests_aggregation (t : PyDate) (members : List Member) (A : Analysis)
    (h : analyze_audience t members = some A) :
    A.interests = (sortCountDesc (analyzeCounts t members).interests).take 20 ∧
    (sortCountDesc (analyzeCounts t members).interests).Perm
      (analyzeCounts t members).interests ∧
    List.Sorted (fun a b : String × Nat => b.2 ≤ a.2)
      (sortCountDesc (analyzeCounts t members).interests) ∧
    (∀ i : String, countOf (analyzeCounts t members).interests i
        = members.countP (fun m => decide (i ∈ categorize_interests m))) ∧
    (∀ m : Member, (categorize_interests m).Nodup) ∧
    (∀ m : Member, ∀ i : String,
      i ∈ categorize_interests m ↔ i ∈ rawInterestTokens m) := by
  refine ⟨?_, sortCountDesc_perm _, sortCountDesc_sorted _,
    analyzeCounts_interests_countP t members, nodup_categorize_interests,
    fun m i => mem_dedupFirst_iff⟩
  cases members with
  | nil => exact absurd h (by simp [analyze_audience])
  | cons m ms =>
    simp only [analyze_audience, List.isEmpty_cons, if_false, Bool.false_eq_true,
      Option.some.injEq] at h
    rw [← h]
    simp only [mostCommon]

/-- The C6 witness input: two members who both list the interest `music`. -/
def c6Members : List Member :=
  [⟨0, "", none, some "music", none, none, none, none, none⟩,
   ⟨0, "", none, some "music", none, none, none, none, none⟩]

/-- The profile `analyze_audience` computes for `c6Members`. -/
def c6Profile : Analysis :=
  ⟨2, 0, 0, 100,
   [("12-17", 0), ("18-24", 0), ("25-34", 0), ("35-44", 0), ("45+", 0)],
   [], [("music", 2)]⟩

/-- C6 witness: the aggregation facts instantiated on the two-member `music`
harvest and the interest `music`. -/
theorem c6_interests_aggregation_witness :
    c6Profile.interests
        = (sortCountDesc (analyzeCounts ⟨2026, 10, 12⟩ c6Members).interests).take 20 ∧
    (sortCountDesc (analyzeCounts ⟨2026, 10, 12⟩ c6Members).interests).Perm
      (analyzeCounts ⟨2026, 10, 12⟩ c6Members).interests ∧
    countOf (analyzeCounts ⟨2026, 10, 12⟩ c6Members).interests "music"
      = c6Members.countP (fun m => decide ("music" ∈ categorize_interests m)) ∧
    (categorize_interests ⟨0, "", none, some "music", none, none, none, none, none⟩).Nodup := by
  have hA : analyze_audience ⟨2026, 10, 12⟩ c6Members = some c6Profile := by
    have hc : analyzeCounts ⟨2026, 10, 12⟩ c6Members =
        ⟨0, 0, 2, ageGroupsDef.map (fun g => (g, 0)), [], [("music", 2)]⟩ := by decide
    simp only [analyze_audience, hc, mostCommon, sortCountDesc, insertDesc, c6Profile,
      ageGroupsDef]
    norm_num [c6Members, insertDesc, pyRound1, halfEven]
  obtain ⟨h1, h2, _, h4, h5, _⟩ :=
    c6_interests_aggregation ⟨2026, 10, 12⟩ c6Members c6Profile hA
  exact ⟨h1, h2, h4 "music", h5 _⟩

/-- A derived age comes from a three-part dotted birthdate with a truthy
parsed year, equals the current year minus the birth year with the
before-birthday decrement, and lies within [12, 120]. -/
lemma extract_age_some {t : PyDate} {b : String} {a : Int}
    (h : extract_age t b = some a) :
    ∃ pd pm py d mo y,
      splitOnChar '.' b.data = [pd, pm, py] ∧
      pyInt? pd = some d ∧ pyInt? pm = some mo ∧ pyInt? py = some y ∧ y ≠ 0 ∧
      a = t.year - y - (if t.month < mo ∨ (t.month = mo ∧ t.day < d) then 1 else 0) ∧
      12 ≤ a ∧ a ≤ 120 := by
  simp only [extract_age] at h
  split at h
  · cases h
  · split at h
    · rename_i hlen2
      split at h
      · rename_i d mo hd hm
        split at h
        · rename_i hlen3
          obtain ⟨pd, pm, py, heq⟩ := List.length_eq_three.mp hlen3
          split at h
          · rename_i y hy
            split at h
            · rename_i hy0
              set x := t.year - y -
                (if t.month < mo ∨ (t.month = mo ∧ t.day < d) then 1 else 0) with hx
              split at h
              · rename_i hrange
                injection h with ha
                refine ⟨pd, pm, py, d, mo, y, heq, ?_, ?_, ?_, hy0, ?_, ?_, ?_⟩
                · rw [heq] at hd; exact hd
                · rw [heq] at hm; exact hm
                · rw [heq] at hy; exact hy
                · rw [← ha, hx]
                · exact ha ▸ hrange.1
                · exact ha ▸ hrange.2
              · cases h
            · cases h
          · cases h
        · cases h
      · cases h
    · cases h

/-- Every derived age lies within [12, 120]. -/
lemma extract_age_range {t : PyDate} {b : String} {a : Int}
    (h : extract_age t b = some a) : 12 ≤ a ∧ a ≤ 120 := by
  obtain ⟨_, _, _, _, _, _, _, _, _, _, _, _, h12, h120⟩ := extract_age_some h
  exact ⟨h12, h120⟩

/-- An age within [12, 120] belongs to exactly one of the five brackets. -/
lemma bracket_unique (a : Int) (h12 : 12 ≤ a) (h120 : a ≤ 120) :
    (ageGroupsDef.filter (fun g => decide (g.2.1 ≤ a ∧ a ≤ g.2.2))).length = 1 := by
  interval_cases a <;> decide

/-- Total count recorded across the five age brackets. -/
def bracketSum (l : List ((String × Int × Int) × Nat)) : Nat := (l.map (·.2)).sum

/-- The loop's `if age:` condition: a derived age that is truthy. -/
def ageTruthy (t : PyDate) (m : Member) : Bool :=
  match extract_age t m.bdate with
  | some a => decide (a ≠ 0)
  | none => false

lemma incBracket_keys (a : Int) (l : List ((String × Int × Int) × Nat)) :
    (incBracket a l).map (·.1) = l.map (·.1) := by
  induction l with
  | nil => rfl
  | cons hd tl ih =>
    obtain ⟨g, n⟩ := hd
    simp only [incBracket]
    split
    · simp
    · simp [ih]

/-- Bumping a bracket with an in-range age adds exactly one to the bracket
total, provided the counter carries the five fixed brackets. -/
lemma incBracket_sum_of_range {a : Int} {l : List ((String × Int × Int) × Nat)}
    (hk : l.map (·.1) = ageGroupsDef) (h12 : 12 ≤ a) (h120 : a ≤ 120) :
    bracketSum (incBracket a l) = bracketSum l + 1 := by
  rcases l with _ | ⟨⟨g1, n1⟩, _ | ⟨⟨g2, n2⟩, _ | ⟨⟨g3, n3⟩, _ | ⟨⟨g4, n4⟩,
    _ | ⟨⟨g5, n5⟩, _ | ⟨g6, l⟩⟩⟩⟩⟩⟩ <;> simp [ageGroupsDef] at hk
  obtain ⟨rfl, rfl, rfl, rfl, rfl⟩ := hk
  simp only [incBracket, ageGroupsDef]
  split_ifs <;> simp [bracketSum] <;> omega

/-- The age-bracket counters after one member: bumped by the first bracket
containing a truthy derived age, untouched otherwise. -/
lemma stepMember_ageCounts (t : PyDate) (st : AnalyzeCounts) (m : Member) :
    (stepMember t st m).ageCounts =
      match extract_age t m.bdate with
      | some a => if a ≠ 0 then incBracket a st.ageCounts else st.ageCounts
      | none => st.ageCounts := by
  simp only [stepMember]
  repeat' split
  all_goals rfl

/-- The aggregation loop keeps the five fixed bracket keys, and the bracket
total grows by one exactly on members with a truthy derived age. -/
lemma foldl_age_inv (t : PyDate) (ms : List Member) :
    ∀ st : AnalyzeCounts, st.ageCounts.map (·.1) = ageGroupsDef →
      ((ms.foldl (stepMember t) st).ageCounts.map (·.1) = ageGroupsDef ∧
       bracketSum ((ms.foldl (stepMember t) st).ageCounts)
         = bracketSum st.ageCounts + ms.countP (ageTruthy t)) := by
  induction ms with
  | nil => intro st hst; simpa using hst
  | cons m ms ih =>
    intro st hst
    rw [List.foldl_cons]
    have hkeys : (stepMember t st m).ageCounts.map (·.1) = ageGroupsDef := by
      rw [stepMember_ageCounts]
      cases hage : extract_age t m.bdate with
      | none => exact hst
      | some a =>
        by_cases ha0 : a ≠ 0
        · simp [ha0, incBracket_keys, hst]
        · simp [ha0, hst]
    obtain ⟨ih1, ih2⟩ := ih (stepMember t st m) hkeys
    have hstep : bracketSum (stepMember t st m).ageCounts
        = bracketSum st.ageCounts + (if ageTruthy t m = true then 1 else 0) := by
      rw [stepMember_ageCounts]
      cases hage : extract_age t m.bdate with
      | none =>
        have hfalse : ageTruthy t m = false := by simp [ageTruthy, hage]
        simp [hfalse]
      | some a =>
        have hr := extract_age_range hage
        have ha0 : a ≠ 0 := by omega
        have htru : ageTruthy t m = true := by simp [ageTruthy, hage, ha0]
        rw [htru]
        show bracketSum (if a ≠ 0 then incBracket a st.ageCounts else st.ageCounts)
            = bracketSum st.ageCounts + (if true = true then 1 else 0)
        rw [if_pos ha0, incBracket_sum_of_range hst hr.1 hr.2]
        simp
    refine ⟨ih1, ?_⟩
    rw [ih2, hstep, List.countP_cons]
    omega

/-- C5: a member's age is derived only from a three-part dotted birthdate
with a truthy year, as `current_year − birth_year` minus one before the
birthday, and only within [12, 120]; an in-range age matches exactly one of
the five brackets; the bracket totals plus the unknown-age members account
for every member; and the profile's bracket percentages are computed with
the total member count (unknown ages included) as denominator. -/
theorem c5_age_brackets (t : PyDate) (b : String) (a : Int) (ms : List Member)
    (A : Analysis) (ha : extract_age t b = some a)
    (hA : analyze_audience t ms = some A) :
    (∃ pd pm py d mo y,
      splitOnChar '.' b.data = [pd, pm, py] ∧
      pyInt? pd = some d ∧ pyInt? pm = some mo ∧ pyInt? py = some y ∧ y ≠ 0 ∧
      a = t.year - y - (if t.month < mo ∨ (t.month = mo ∧ t.day < d) then 1 else 0)) ∧
    (12 ≤ a ∧ a ≤ 120) ∧
    (ageGroupsDef.filter (fun g => decide (g.2.1 ≤ a ∧ a ≤ g.2.2))).length = 1 ∧
    bracketSum (analyzeCounts t ms).ageCounts
        + ms.countP (fun m => !(ageTruthy t m)) = ms.length ∧
    A.total_members = ms.length ∧
    A.age_groups = (analyzeCounts t ms).ageCounts.map
        (fun gn => (gn.1.1, pyRound1 ((gn.2 : ℚ) / (ms.length : ℚ) * 100))) := by
  obtain ⟨pd, pm, py, d, mo, y, h1, h2, h3, h4, h5, h6, h12, h120⟩ := extract_age_some ha
  refine ⟨⟨pd, pm, py, d, mo, y, h1, h2, h3, h4, h5, h6⟩, ⟨h12, h120⟩,
    bracket_unique a h12 h120, ?_, ?_, ?_⟩
  · have hinit : initCounts.ageCounts.map (·.1) = ageGroupsDef := by decide
    have hinv := (foldl_age_inv t ms initCounts hinit).2
    have hzero : bracketSum initCounts.ageCounts = 0 := by decide
    rw [analyzeCounts, hinv, hzero, Nat.zero_add]
    have hcomp : ∀ l : List Member,
        l.countP (ageTruthy t) + l.countP (fun m => !(ageTruthy t m)) = l.length := by
      intro l
      induction l with
      | nil => simp
      | cons x xs ih =>
        rw [List.countP_cons, List.countP_cons]
        by_cases hx : ageTruthy t x = true <;> simp [hx] <;> omega
    have := hcomp ms
    omega
  · cases ms with
    | nil => exact absurd hA (by simp [analyze_audience])
    | cons m0 ms0 =>
      simp only [analyze_audience, List.isEmpty_cons, if_false, Bool.false_eq_true,
        Option.some.injEq] at hA
      rw [← hA]
  · cases ms with
    | nil => exact absurd hA (by simp [analyze_audience])
    | cons m0 ms0 =>
      simp only [analyze_audience, List.isEmpty_cons, if_false, Bool.false_eq_true,
        Option.some.injEq] at hA
      rw [← hA]

/-- The C5 witness input: one male member born 15.05.1990, aged 36 on
2026-10-12. -/
def c5Members : List Member :=
  [⟨2, "15.05.1990", none, none, none, none, none, none, none⟩]

/-- The profile `analyze_audience` computes for `c5Members` on 2026-10-12. -/
def c5Profile : Analysis :=
  ⟨1, 100, 0, 0,
   [("12-17", 0), ("18-24", 0), ("25-34", 0), ("35-44", 100), ("45+", 0)],
   [], []⟩

/-- C5 witness: the age facts instantiated on the birthdate `15.05.1990`,
the derived age 36 and the single-member harvest. -/
theorem c5_age_brackets_witness :
    (∃ pd pm py d mo y,
      splitOnChar '.' ("15.05.1990" : String).data = [pd, pm, py] ∧
      pyInt? pd = some d ∧ pyInt? pm = some mo ∧ pyInt? py = some y ∧ y ≠ 0 ∧
      (36 : Int) = 2026 - y -
        (if (10 : Int) < mo ∨ ((10 : Int) = mo ∧ (12 : Int) < d) then 1 else 0)) ∧
    ((12 : Int) ≤ 36 ∧ (36 : Int) ≤ 120) ∧
    (ageGroupsDef.filter (fun g => decide (g.2.1 ≤ (36 : Int) ∧ (36 : Int) ≤ g.2.2))).length
        = 1 ∧
    bracketSum (analyzeCounts ⟨2026, 10, 12⟩ c5Members).ageCounts
        + c5Members.countP (fun m => !(ageTruthy ⟨2026, 10, 12⟩ m)) = c5Members.length ∧
    c5Profile.total_members = c5Members.length ∧
    c5Profile.age_groups = (analyzeCounts ⟨2026, 10, 12⟩ c5Members).ageCounts.map
        (fun gn => (gn.1.1, pyRound1 ((gn.2 : ℚ) / (c5Members.length : ℚ) * 100))) := by
  have hA : analyze_audience ⟨2026, 10, 12⟩ c5Members = some c5Profile := by
    have hc : analyzeCounts ⟨2026, 10, 12⟩ c5Members =
        ⟨1, 0, 0,
         [(("12-17", 12, 17), 0), (("18-24", 18, 24), 0), (("25-34", 25, 34), 0),
          (("35-44", 35, 44), 1), (("45+", 45, 120), 0)], [], []⟩ := by decide
    simp only [analyze_audience, hc, mostCommon, sortCountDesc, c5Profile,
      show c5Members.isEmpty = false from rfl, show c5Members.length = 1 from rfl]
    norm_num [pyRound1, halfEven]
  exact c5_age_brackets ⟨2026, 10, 12⟩ "15.05.1990" 36 c5Members c5Profile (by decide) hA

end Auditoria
